import Mathlib

/-!
Verification of the qobuz-mini playback engine (qobuz-player-controls crate)
against its natural-language specification.

Shallow embedding conventions:
* Rust `Duration` values are modelled as non-negative rationals counting
  seconds; `as_millis()` is integer truncation of the millisecond count.
* `f32`/`f64` arithmetic is idealised over `ℚ` (exact rationals).
* `i64` saturating arithmetic and the `u128 as i64` cast are modelled
  explicitly on `ℤ`.
* Fallible operations are reported through an explicit result type; a Rust
  panic is a distinguished outcome.
* External I/O (catalogue client, downloader, file decoding, stream opening,
  database writes) is supplied through explicit oracle records; the state
  transitions the engine performs around those results are translated from
  the source.
* `tracklist.rs` is declared in `lib.rs` but its file is not part of the
  sources; its operations are modelled from the specification and marked
  `Modelled from the spec:` below.
-/

namespace QobuzMini

/-- Rust `x.clamp(lo, hi)` on an ordered type (requires `lo ≤ hi`). -/
def rustClamp {α : Type} [LinearOrder α] (x lo hi : α) : α :=
  min (max x lo) hi

/-- The `u128 as i64` cast: truncate to 64 bits, then reinterpret as signed. -/
def u128AsI64 (n : ℕ) : ℤ :=
  let m : ℕ := n % 2 ^ 64
  if m < 2 ^ 63 then (m : ℤ) else (m : ℤ) - 2 ^ 64

/-- `i64::saturating_add` on in-range operands: the mathematical sum clamped
to the `i64` range. -/
def i64SatAdd (a b : ℤ) : ℤ :=
  max (-(2 ^ 63)) (min (2 ^ 63 - 1) (a + b))

/-- `Duration::as_millis()` of a duration given in seconds: the (truncated)
number of whole milliseconds, as the `u128` the Rust method returns.
Durations are non-negative, so `Int.toNat` of the floor is faithful. -/
def asMillisNat (q : ℚ) : ℕ :=
  (⌊q * 1000⌋).toNat

/-- `duration.as_millis() as i64` as it appears in `sink.rs` / `player.rs`. -/
def asMillisI64 (q : ℚ) : ℤ :=
  u128AsI64 (asMillisNat q)

/-- Rust `f32::round`: round half away from zero. -/
def rustRound (x : ℚ) : ℤ :=
  if 0 ≤ x then ⌊x + 1 / 2⌋ else -⌊-x + 1 / 2⌋

/-- Rust `Vec::remove(i)`: removes and shifts left when `i` is in bounds,
panics (`none`) otherwise. -/
def rustVecRemove {α : Type} (l : List α) (i : ℕ) : Option (List α) :=
  if i < l.length then some (l.eraseIdx i) else none

/-- Rust `indices.iter().map(|&i| l[i].clone()).collect()`: collects the
elements of `l` at the given indices, panicking (`none`) at the first
out-of-range index. -/
def collectIdx {α : Type} (l : List α) : List ℕ → Option (List α)
  | [] => some []
  | j :: rest =>
    match l.get? j with
    | none => none
    | some x =>
      match collectIdx l rest with
      | none => none
      | some xs => some (x :: xs)

/-! ## Sink position accounting (src/qobuz-player-controls/src/sink.rs)

`Sink::position` (sink.rs lines 80–97) reads the rodio sink's raw position
`get_pos()`, the `duration_played` accumulator and the signed
`position_offset_ms`:

* if `position < duration_played` it returns `Duration::default()` (zero)
  immediately — without consulting the offset;
* otherwise it forms `raw = position - duration_played`, takes
  `raw.as_millis() as i64`, saturating-adds the offset, clamps at zero and
  converts the result back to a duration via
  `Duration::from_millis(.. as u64)`.
-/

/-- `Sink::position` from sink.rs, as a function of the rodio raw position,
the `duration_played` accumulator (both in seconds) and
`position_offset_ms`.  The result is in seconds. -/
def sinkPosition (raw durationPlayed : ℚ) (offsetMs : ℤ) : ℚ :=
  if raw < durationPlayed then 0
  else
    let rawMs : ℤ := asMillisI64 (raw - durationPlayed)
    ((max (i64SatAdd rawMs offsetMs) 0).toNat : ℚ) / 1000

/-- `Sink::adjust_position_offset_ms` from sink.rs lines 103–106:
`offset = offset.saturating_add(delta_ms)`. -/
def adjustPositionOffsetMs (offsetMs delta : ℤ) : ℤ :=
  i64SatAdd offsetMs delta

/-- The position formula exactly as the specification words it:
`position = max(0, sink_raw_pos - duration_played) + position_offset_ms`,
with the subtraction clamped at zero first and the signed offset added to
the clamped value (result in seconds, offset in milliseconds). -/
def specPositionFormula (raw durationPlayed : ℚ) (offsetMs : ℤ) : ℚ :=
  ((max 0 ((asMillisNat raw : ℤ) - (asMillisNat durationPlayed : ℤ)) + offsetMs : ℤ) : ℚ) / 1000

/-- `set_volume` from sink.rs lines 330–333: the gain applied to the rodio
sink is `volume.clamp(0.0, 1.0).powi(3)`. -/
def sink_set_volume (volume : ℚ) : ℚ :=
  rustClamp volume 0 1 ^ 3

/-! ## Stretch/Pitch source block processing
(src/qobuz-player-controls/src/stretch_source_signalsmith.rs) -/

/-- `BLOCK_FRAMES` from stretch_source_signalsmith.rs line 10. -/
def BLOCK_FRAMES : ℕ := 2048

/-- `N_CHANNELS` from stretch_source_signalsmith.rs line 11. -/
def N_CHANNELS : ℕ := 2

/-- `max_output_frames = (BLOCK_FRAMES as f32 / 0.5).ceil() as usize`
(stretch_source_signalsmith.rs line 49). -/
def max_output_frames : ℕ :=
  (⌈(BLOCK_FRAMES : ℚ) / (1 / 2)⌉).toNat

/-- `out_cap = max_output_frames * N_CHANNELS`
(stretch_source_signalsmith.rs line 50), the output buffer capacity in
samples. -/
def out_cap : ℕ :=
  max_output_frames * N_CHANNELS

/-- `normalize_ratio` (stretch_source_signalsmith.rs lines 192–198):
clamp to `[0.5, 2.0]`.  The `is_finite` guard is vacuous over `ℚ`. -/
def normalize_ratio (r : ℚ) : ℚ :=
  rustClamp r (1 / 2) 2

/-- The output-frame count computed by `fill_output`
(stretch_source_signalsmith.rs lines 115–116):
`round(input_frames / ratio) as usize`, then `.max(1).min(max_output_frames)`.
The `as usize` cast saturates negatives to zero (`Int.toNat`). -/
def output_frames (inputFrames : ℕ) (r : ℚ) : ℕ :=
  min (max ((rustRound ((inputFrames : ℚ) / r)).toNat) 1) max_output_frames

/-- `output_len = output_frames * N_CHANNELS`
(stretch_source_signalsmith.rs line 121), in samples. -/
def output_len (inputFrames : ℕ) (r : ℚ) : ℕ :=
  output_frames inputFrames r * N_CHANNELS

/-! ## Data model (qobuz-player-models/src/lib.rs) -/

/-- `TrackStatus` from qobuz-player-models. -/
inductive TrackStatus : Type
  | Played
  | Playing
  | Unplayed
  | Unplayable
deriving DecidableEq, BEq, Repr

/-- `Track` from qobuz-player-models, restricted to the fields the engine
logic reads (`id`, `title`, `available`, `status`, `duration_seconds`);
display-only metadata fields (`number`, `explicit`, images, artist/album
references, `playlist_track_id`) are omitted. -/
structure Track : Type where
  id : ℕ
  title : String
  available : Bool
  status : TrackStatus
  duration_seconds : ℕ
deriving DecidableEq, Repr

/-- Modelled from the spec: `Tracklist` is an ordered sequence of Tracks
plus an origin tag (its file `tracklist.rs` is declared in lib.rs but is
not among the sources).  The origin affects only observable metadata, never
playback, and is omitted here. -/
structure Tracklist : Type where
  queue : List Track
deriving DecidableEq, Repr

/-- Modelled from the spec: `current_position` equals the index of the
Playing track, or 0 if there is none (in particular when empty). -/
def Tracklist.current_position (tl : Tracklist) : ℕ :=
  let i := tl.queue.findIdx (fun t => t.status == TrackStatus.Playing)
  if i < tl.queue.length then i else 0

/-- Modelled from the spec: resetting the cursor leaves no track Playing. -/
def Tracklist.reset (tl : Tracklist) : Tracklist :=
  { queue := tl.queue.map fun t => { t with status := TrackStatus.Unplayed } }

/-- Modelled from the spec: `skip_to_track(i)` — if `0 ≤ i < len` the track
at `i` becomes Playing and the statuses before/after are reset to
Played/Unplayed, returning the now-playing track; otherwise the cursor is
reset (no Playing) and nothing is returned. -/
def Tracklist.skip_to_track (tl : Tracklist) (i : ℤ) : Option Track × Tracklist :=
  if 0 ≤ i ∧ i.toNat < tl.queue.length then
    let n := i.toNat
    let q := tl.queue.mapIdx fun j t =>
      { t with status := if j < n then TrackStatus.Played
                         else if j = n then TrackStatus.Playing
                         else TrackStatus.Unplayed }
    (q.get? n, { queue := q })
  else
    (none, Tracklist.reset tl)

/-- Modelled from the spec: the currently playing track, if any. -/
def Tracklist.current_track (tl : Tracklist) : Option Track :=
  tl.queue.find? (fun t => t.status == TrackStatus.Playing)

/-- `Status` from lib.rs lines 29–35. -/
inductive Status : Type
  | Playing
  | Buffering
  | Paused
deriving DecidableEq, Repr

/-- `PlaybackStretchConfig` from sink.rs lines 18–23 (`f32` ratio and `i16`
pitch fields idealised as `ℚ`/`ℤ`). -/
structure PlaybackStretchConfig : Type where
  time_stretch_ratio : ℚ
  pitch_semitones : ℤ
  pitch_cents : ℤ
deriving DecidableEq, Repr

/-- `QueryTrackResult` from sink.rs lines 446–449. -/
inductive QueryTrackResult : Type
  | Queued
  | RecreateStreamRequired
deriving DecidableEq, BEq, Repr

/-! ## Sink state (src/qobuz-player-controls/src/sink.rs) -/

/-- The `Sink` state components the engine logic observes.  `raw` models the
rodio sink's `get_pos()`, `pending` the sources currently held by the rodio
`SourcesQueueInput` (identified by track id), `hasStream`/`stream_rate` the
presence and sample rate of the open output stream, and
`live_stretch_enabled` the flag set at decode time.  The selected device
name and OS handles are not modelled. -/
structure SinkSt : Type where
  hasStream : Bool
  stream_rate : ℕ
  raw : ℚ
  duration_played : ℚ
  position_offset_ms : ℤ
  pending : List ℕ
  live_stretch_enabled : Bool
deriving DecidableEq, Repr

/-- `Sink::position` (sink.rs lines 80–97): `get_pos()` is
`Duration::default()` when there is no rodio sink. -/
def SinkSt.position (s : SinkSt) : ℚ :=
  sinkPosition (if s.hasStream then s.raw else 0) s.duration_played s.position_offset_ms

/-- `Sink::seek` (sink.rs lines 122–134): a no-op success when there is no
sink; otherwise the underlying `try_seek` may fail (`ok = false`, nothing
reset), and on success `duration_played` and the offset are reset. -/
def SinkSt.try_seek (s : SinkSt) (d : ℚ) (ok : Bool) : Option SinkSt :=
  if s.hasStream then
    if ok then some { s with raw := d, duration_played := 0, position_offset_ms := 0 }
    else none
  else some s

/-- `Sink::clear_queue` (sink.rs lines 152–161): reset `duration_played`
and the offset, and clear the rodio sources queue (`sender.clear()`). -/
def SinkSt.clear_queue (s : SinkSt) : SinkSt :=
  { s with duration_played := 0, position_offset_ms := 0, pending := [] }

/-- `Sink::clear` (sink.rs lines 136–150): `clear_queue`, then drop the
rodio sink, queue input and output stream (after which `get_pos()` reads as
zero). -/
def SinkSt.clear (s : SinkSt) : SinkSt :=
  { s.clear_queue with hasStream := false, raw := 0 }

/-- `Sink::adjust_position_offset_ms` (sink.rs lines 103–106). -/
def SinkSt.adjust_position_offset_ms (s : SinkSt) (delta : ℤ) : SinkSt :=
  { s with position_offset_ms := i64SatAdd s.position_offset_ms delta }

/-- The outcomes of decoding and stream opening inside `Sink::query_track`
that depend on the file on disk and the OS audio stack: decoder success,
decoded channel count and sample rate, whether a needed stream could be
opened (after the internal device fallback), whether a failed open is
classified as device-related by its message, and whether an initial
`start_at` seek on the source succeeds. -/
structure SinkOracle : Type where
  fileOk : Bool
  channels : ℕ
  sample_rate : ℕ
  openStreamOk : Bool
  deviceErr : Bool
  startSeekOk : Bool
deriving DecidableEq, Repr

/-- `Sink::query_track` (sink.rs lines 171–314).  The error payload records
whether the failure message mentions device unavailability.  Mutations made
before an error (the `live_stretch_enabled` flag, a freshly opened stream)
persist, hence the state is returned alongside the result. -/
def SinkSt.query_track (s : SinkSt) (trackId : ℕ) (o : SinkOracle)
    (start_at : Option ℚ) : Except Bool QueryTrackResult × SinkSt :=
  if o.fileOk = false then (Except.error false, s)
  else
    let s := { s with live_stretch_enabled := o.channels == 2 }
    let same_sample_rate : Bool := if s.hasStream then o.sample_rate == s.stream_rate else true
    if same_sample_rate = false then (Except.ok QueryTrackResult.RecreateStreamRequired, s)
    else
      let needs_stream := s.hasStream = false
      if needs_stream ∧ o.openStreamOk = false then (Except.error o.deviceErr, s)
      else
        let s := if needs_stream then { s with hasStream := true, stream_rate := o.sample_rate }
                 else s
        let seekFails : Bool := match start_at with
          | some p => decide (0 < p) && !o.startSeekOk
          | none => false
        if seekFails then (Except.error false, s)
        else (Except.ok QueryTrackResult.Queued, { s with pending := s.pending ++ [trackId] })

/-! ## Persistent store gateway (src/qobuz-player-controls/src/database.rs) -/

namespace Database

/-- `Database::set_time_stretch_ratio` (database.rs lines 266–279): the
value bound into the UPDATE is `ratio.clamp(0.5, 2.0) as f64`. -/
def set_time_stretch_ratio (r : ℚ) : ℚ :=
  rustClamp r (1 / 2) 2

/-- `Database::set_pitch_semitones` (database.rs lines 281–294): the value
bound into the UPDATE is `semitones.clamp(-12, 12) as i32`. -/
def set_pitch_semitones (semitones : ℤ) : ℤ :=
  rustClamp semitones (-12) 12

/-- `Database::set_pitch_cents` (database.rs lines 296–309): the value
bound into the UPDATE is `cents.clamp(-100, 100) as i32`. -/
def set_pitch_cents (cents : ℤ) : ℤ :=
  rustClamp cents (-100) 100

/-- `Database::set_tracklist` (database.rs lines 110–131): a `DELETE FROM
tracklist` statement followed by a separate `INSERT` statement, with no
enclosing transaction.  The table is the list of rows; each statement may
fail independently, and a statement that fails leaves the table as the
preceding statement left it.  Returns the resulting table and whether the
call succeeded. -/
def set_tracklist {α : Type} (table : List α) (t : α)
    (deleteOk insertOk : Bool) : List α × Bool :=
  if deleteOk = false then (table, false)
  else if insertOk = false then ([], false)
  else ([t], true)

/-- `Database::get_tracklist` (database.rs lines 133–144): `fetch_one`
returns the first row if any. -/
def get_tracklist {α : Type} (table : List α) : Option α :=
  table.head?

end Database

/-! ## Engine state and command handlers
(src/qobuz-player-controls/src/player.rs) -/

/-- The engine-owned state that the player's command handlers read and
write: the published watch-channel values (tracklist, status, position,
volume), the sink, the shared playback stretch config, and the two
next-track bookkeeping flags. -/
structure PlayerSt : Type where
  tracklist : Tracklist
  status : Status
  publishedPos : ℚ
  publishedVolume : ℚ
  sink : SinkSt
  stretch : PlaybackStretchConfig
  next_track_is_queried : Bool
  next_track_in_sink_queue : Bool
deriving DecidableEq, Repr

/-- Outcomes of the external calls a handler makes: catalogue `track_url`,
`ensure_track_is_downloaded` (a path when the file is already cached),
the sink's decode/stream outcomes, database writes, and the rodio seek. -/
structure EngineOracle : Type where
  track_url_ok : Bool
  download_path : Option ℕ
  sink : SinkOracle
  db_ok : Bool
  seek_ok : Bool
deriving DecidableEq, Repr

/-- Result of one command handler: `ok`/`error` mirror `Result` (the loop
turns `error` into a notification), `panic` is an unguarded index/remove
panic.  Each carries the engine state after the mutations that happened
before returning. -/
inductive HResult (α : Type) : Type
  | ok (st : α)
  | error (st : α)
  | panic (st : α)
deriving DecidableEq, Repr

/-- The state carried by a handler result. -/
def HResult.state {α : Type} : HResult α → α
  | HResult.ok st => st
  | HResult.error st => st
  | HResult.panic st => st

namespace Player

/-- `Player::rescale_display_position` (player.rs lines 118–121):
`pos * old_ratio / new_ratio`, floored at zero. -/
def rescale_display_position (pos old_ratio new_ratio : ℚ) : ℚ :=
  max (pos * old_ratio / new_ratio) 0

/-- `Player::broadcast_tracklist` (player.rs lines 352–356):
`database.set_tracklist` then publish on the tracklist watch channel; a
database failure propagates before the publish. -/
def broadcast_tracklist (st : PlayerSt) (tl : Tracklist) (dbOk : Bool) : HResult PlayerSt :=
  if dbOk then HResult.ok { st with tracklist := tl } else HResult.error st

/-- `Player::seek` (player.rs lines 358–362): sink seek, then publish the
sink's position. -/
def seek (st : PlayerSt) (d : ℚ) (o : EngineOracle) : HResult PlayerSt :=
  match st.sink.try_seek d o.seek_ok with
  | none => HResult.error st
  | some s => HResult.ok { st with sink := s, publishedPos := SinkSt.position s }

/-- `Player::query_track` (player.rs lines 279–343).  For a next-track
query the `next_track_is_queried` flag is set first; a device-classified
sink failure is swallowed (status Paused, device reset, `Ok(())`). -/
def query_track (st : PlayerSt) (track : Track) (next_track : Bool)
    (o : EngineOracle) : HResult PlayerSt :=
  let st := if next_track then { st with next_track_is_queried := true } else st
  if o.track_url_ok = false then HResult.error st
  else
    match o.download_path with
    | some _path =>
      match st.sink.query_track track.id o.sink none with
      | (Except.ok qres, s) =>
        let st := { st with sink := s }
        let st := if next_track then
            { st with next_track_in_sink_queue := qres == QueryTrackResult.Queued }
          else st
        HResult.ok { st with status := Status.Playing }
      | (Except.error devRelated, s) =>
        let st := { st with sink := s }
        if devRelated then HResult.ok { st with status := Status.Paused }
        else HResult.error st
    | none => HResult.ok { st with status := Status.Buffering }

/-- `Player::new_queue` (player.rs lines 447–460): clear the sink, reset
both next-track flags, query the current track of the new tracklist, then
broadcast it. -/
def new_queue (st : PlayerSt) (tl : Tracklist) (o : EngineOracle) : HResult PlayerSt :=
  let st := { st with sink := st.sink.clear, next_track_is_queried := false,
                      next_track_in_sink_queue := false }
  match Tracklist.current_track tl with
  | some first_track =>
    match query_track st first_track false o with
    | HResult.ok st => broadcast_tracklist st tl o.db_ok
    | HResult.error st => HResult.error st
    | HResult.panic st => HResult.panic st
  | none => broadcast_tracklist st tl o.db_ok

/-- `Player::update_queue` (player.rs lines 462–467): reset
`next_track_is_queried`, clear the sink's queue, broadcast the tracklist. -/
def update_queue (st : PlayerSt) (tl : Tracklist) (dbOk : Bool) : HResult PlayerSt :=
  let st := { st with next_track_is_queried := false, sink := st.sink.clear_queue }
  broadcast_tracklist st tl dbOk

/-- `Player::skip_to_position` (player.rs lines 403–433). -/
def skip_to_position (st : PlayerSt) (new_position : ℤ) (force : Bool)
    (o : EngineOracle) : HResult PlayerSt :=
  let current_position := st.tracklist.current_position
  if force = false ∧ new_position < (current_position : ℤ) ∧
      1000 < asMillisNat st.publishedPos then
    seek st 0 o
  else
    let st := { st with publishedPos := 0 }
    match st.tracklist.skip_to_track new_position with
    | (some _, tl) => new_queue st tl o
    | (none, tl) =>
      let tl := Tracklist.reset tl
      let st := { st with sink := st.sink.clear, next_track_is_queried := false,
                          status := Status.Paused, publishedPos := 0 }
      broadcast_tracklist st tl o.db_ok

/-- `Player::next` (player.rs lines 435–439). -/
def next (st : PlayerSt) (o : EngineOracle) : HResult PlayerSt :=
  skip_to_position st ((st.tracklist.current_position : ℤ) + 1) true o

/-- `Player::previous` (player.rs lines 441–445). -/
def previous (st : PlayerSt) (o : EngineOracle) : HResult PlayerSt :=
  skip_to_position st ((st.tracklist.current_position : ℤ) - 1) false o

/-- `Player::set_volume` (player.rs lines 345–350): publish the raw value
on the volume watch channel, re-apply the sink gain, persist. -/
def set_volume (st : PlayerSt) (volume : ℚ) (dbOk : Bool) : HResult PlayerSt :=
  let st := { st with publishedVolume := volume }
  if dbOk then HResult.ok st else HResult.error st

/-- `Player::track_finished` (player.rs lines 780–825). -/
def track_finished (st : PlayerSt) (o : EngineOracle) : HResult PlayerSt :=
  let new_position := st.tracklist.current_position + 1
  match st.tracklist.skip_to_track (new_position : ℤ) with
  | (some next_track, tl) =>
    let step : HResult PlayerSt :=
      if st.next_track_in_sink_queue = false then
        let st := { st with sink := st.sink.clear }
        query_track st next_track false o
      else HResult.ok st
    match step with
    | HResult.ok st =>
      broadcast_tracklist { st with next_track_is_queried := false } tl o.db_ok
    | HResult.error st => HResult.error st
    | HResult.panic st => HResult.panic st
  | (none, tl) =>
    let tl := Tracklist.reset tl
    let st := { st with status := Status.Paused, sink := st.sink.clear,
                        publishedPos := 0 }
    broadcast_tracklist { st with next_track_is_queried := false } tl o.db_ok

/-- `Player::reload_current_track_with_stretch` (player.rs lines 827–878). -/
def reload_current_track_with_stretch (st : PlayerSt)
    (old_time_stretch : Option ℚ) (o : EngineOracle) : HResult PlayerSt :=
  if st.status ≠ Status.Playing then HResult.ok st
  else
    match Tracklist.current_track st.tracklist with
    | none => HResult.ok st
    | some track =>
      if o.track_url_ok = false then HResult.ok st
      else
        match o.download_path with
        | none => HResult.ok st
        | some _path =>
          let current_pos := st.sink.position
          let st := { st with sink := st.sink.clear }
          let new_ratio := st.stretch.time_stretch_ratio
          let start_at : Option ℚ :=
            if 0 < current_pos then
              some (match old_time_stretch with
                | some old_ratio => rescale_display_position current_pos old_ratio new_ratio
                | none => current_pos)
            else none
          match st.sink.query_track track.id o.sink start_at with
          | (Except.ok _, s) =>
            let st := { st with sink := s }
            HResult.ok { st with publishedPos :=
              (match start_at with
               | some pos => pos
               | none => SinkSt.position s) }
          | (Except.error _, s) => HResult.error { st with sink := s }

/-- The `SetTimeStretch` handler (player.rs lines 719–741): clamp, persist,
write the shared config; if the sink supports live stretch and the position
is positive, rescale the display position, adjust the sink offset by the
millisecond difference and publish; if live stretch is unsupported, reload
the current track (result discarded). -/
def set_time_stretch (st : PlayerSt) (ratio_in : ℚ) (o : EngineOracle) : HResult PlayerSt :=
  let ratio := rustClamp ratio_in (1 / 2) 2
  let old_ratio := st.stretch.time_stretch_ratio
  if o.db_ok = false then HResult.ok st
  else
    let current_pos := st.sink.position
    let st := { st with stretch := { st.stretch with time_stretch_ratio := ratio } }
    let live := st.sink.live_stretch_enabled
    if live = true ∧ 0 < current_pos then
      let desired_pos := rescale_display_position current_pos old_ratio ratio
      let delta_ms := asMillisI64 desired_pos - asMillisI64 current_pos
      HResult.ok { st with sink := st.sink.adjust_position_offset_ms delta_ms,
                           publishedPos := desired_pos }
    else if live = false then
      HResult.ok (reload_current_track_with_stretch st (some old_ratio) o).state
    else HResult.ok st

/-- The `SetPitch` handler (player.rs lines 742–755). -/
def set_pitch (st : PlayerSt) (semitones_in : ℤ) (o : EngineOracle) : HResult PlayerSt :=
  let semitones := rustClamp semitones_in (-12) 12
  if o.db_ok = false then HResult.ok st
  else
    let st := { st with stretch := { st.stretch with pitch_semitones := semitones } }
    if st.sink.live_stretch_enabled = false then
      HResult.ok (reload_current_track_with_stretch st none o).state
    else HResult.ok st

/-- The `SetPitchCents` handler (player.rs lines 756–769). -/
def set_pitch_cents (st : PlayerSt) (cents_in : ℤ) (o : EngineOracle) : HResult PlayerSt :=
  let cents := rustClamp cents_in (-100) 100
  if o.db_ok = false then HResult.ok st
  else
    let st := { st with stretch := { st.stretch with pitch_cents := cents } }
    if st.sink.live_stretch_enabled = false then
      HResult.ok (reload_current_track_with_stretch st none o).state
    else HResult.ok st

/-- The identity check in `Player::reorder_queue` (player.rs line 596):
`new_order.iter().enumerate().all(|(i, &v)| i == v)`. -/
def identity_order (new_order : List ℕ) : Bool :=
  new_order.enum.all fun p => p.1 == p.2

/-- `Player::add_track_to_queue` (player.rs lines 570–580); `fetched` is
the catalogue client's `track(id)` result (`none` = error, propagated). -/
def add_track_to_queue (st : PlayerSt) (fetched : Option Track)
    (dbOk : Bool) : HResult PlayerSt :=
  match fetched with
  | none => HResult.error st
  | some track => update_queue st { queue := st.tracklist.queue ++ [track] } dbOk

/-- `Player::play_track_next` (player.rs lines 582–593): `Vec::insert` at
`current_position + 1` panics when that index exceeds the queue length. -/
def play_track_next (st : PlayerSt) (fetched : Option Track)
    (dbOk : Bool) : HResult PlayerSt :=
  match fetched with
  | none => HResult.error st
  | some track =>
    let current_index := st.tracklist.current_position
    if current_index + 1 ≤ st.tracklist.queue.length then
      update_queue st
        { queue := st.tracklist.queue.insertIdx (current_index + 1) track } dbOk
    else HResult.panic st

/-- `Player::remove_index_from_queue` (player.rs lines 560–568):
`tracklist.queue.remove(index)` with no bounds check. -/
def remove_index_from_queue (st : PlayerSt) (index : ℕ) (dbOk : Bool) : HResult PlayerSt :=
  match rustVecRemove st.tracklist.queue index with
  | none => HResult.panic st
  | some q => update_queue st { queue := q } dbOk

/-- `Player::reorder_queue` (player.rs lines 595–613): no-op on an
identity-shaped order, otherwise `tracklist.queue[i]` for each entry with
no bounds check. -/
def reorder_queue (st : PlayerSt) (new_order : List ℕ) (dbOk : Bool) : HResult PlayerSt :=
  if identity_order new_order then HResult.ok st
  else
    match collectIdx st.tracklist.queue new_order with
    | none => HResult.panic st
    | some q => update_queue st { queue := q } dbOk

end Player

/-! ## Command enum (src/qobuz-player-controls/src/controls.rs) -/

/-- The variants of `ControlCommand` as declared in controls.rs lines 3–53,
in source order. -/
inductive ControlCommandKind : Type
  | Album
  | Playlist
  | ArtistTopTracks
  | Track
  | SkipToPosition
  | Next
  | Previous
  | PlayPause
  | Play
  | Pause
  | JumpForward
  | JumpBackward
  | Seek
  | SetVolume
  | AddTrackToQueue
  | RemoveIndexFromQueue
  | PlayTrackNext
  | ReorderQueue
  | SetAudioDevice
deriving DecidableEq, Fintype, Repr

/-- The variant names of the `ControlCommand` enum in controls.rs, in
declaration order. -/
def codeCommandNames : List String :=
  ["Album", "Playlist", "ArtistTopTracks", "Track", "SkipToPosition",
   "Next", "Previous", "PlayPause", "Play", "Pause", "JumpForward",
   "JumpBackward", "Seek", "SetVolume", "AddTrackToQueue",
   "RemoveIndexFromQueue", "PlayTrackNext", "ReorderQueue",
   "SetAudioDevice"]

/-- The 22 command names the specification lists (§4.1), with the `Play…`
spellings mapped to the source's variant names where the source has them. -/
def specCommandNames : List String :=
  ["Album", "Playlist", "ArtistTopTracks", "Track", "Next", "Previous",
   "PlayPause", "Play", "Pause", "JumpForward", "JumpBackward", "Seek",
   "SkipToPosition", "SetVolume", "AddTrackToQueue",
   "RemoveIndexFromQueue", "PlayTrackNext", "ReorderQueue",
   "SetAudioDevice", "SetTimeStretch", "SetPitch", "SetPitchCents"]

/-! ## Concrete example data used by witnesses and counterexamples -/

/-- A 10-second track "A" marked Played. -/
def trackA : Track :=
  { id := 1, title := "A", available := true, status := TrackStatus.Played,
    duration_seconds := 10 }

/-- A 10-second track "B" marked Playing. -/
def trackB : Track :=
  { id := 2, title := "B", available := true, status := TrackStatus.Playing,
    duration_seconds := 10 }

/-- Queue [A, B] with B playing. -/
def exTracklist : Tracklist :=
  { queue := [trackA, trackB] }

/-- A sink with an open 44.1 kHz stream, raw position 2 s, nothing pending. -/
def exSink : SinkSt :=
  { hasStream := true, stream_rate := 44100, raw := 2, duration_played := 0,
    position_offset_ms := 0, pending := [], live_stretch_enabled := true }

/-- A playing engine state over [A, B] at published position 2 s. -/
def exState : PlayerSt :=
  { tracklist := exTracklist, status := Status.Playing, publishedPos := 2,
    publishedVolume := 1, sink := exSink,
    stretch := { time_stretch_ratio := 1, pitch_semitones := 0, pitch_cents := 0 },
    next_track_is_queried := false, next_track_in_sink_queue := false }

/-- The example sink at raw position 10 s. -/
def exSink10 : SinkSt :=
  { exSink with raw := 10 }

/-- The example playing state at position 10 s (stretch ratio 1). -/
def exState10 : PlayerSt :=
  { exState with sink := exSink10, publishedPos := 10 }

/-- An oracle where every external call succeeds (2-channel 44.1 kHz decode,
file cached, database healthy). -/
def exOracle : EngineOracle :=
  { track_url_ok := true, download_path := some 0,
    sink := { fileOk := true, channels := 2, sample_rate := 44100,
              openStreamOk := true, deviceErr := false, startSeekOk := true },
    db_ok := true, seek_ok := true }

/-! # Theorems -/

/-! ### Evaluation lemmas for the machine-integer helpers -/

theorem u128AsI64_of_lt {n : ℕ} (h : n < 2 ^ 63) : u128AsI64 n = (n : ℤ) := by
  have h64 : n < 2 ^ 64 := lt_trans h (by norm_num)
  simp only [u128AsI64, Nat.mod_eq_of_lt h64]
  rw [if_pos h]

theorem i64SatAdd_eq {a b : ℤ} (hlo : -(2 ^ 63) ≤ a + b) (hhi : a + b ≤ 2 ^ 63 - 1) :
    i64SatAdd a b = a + b := by
  rw [i64SatAdd, min_eq_right (by omega), max_eq_right (by omega)]

theorem asMillisNat_cast {q : ℚ} (h : 0 ≤ q) : ((asMillisNat q : ℤ)) = ⌊q * 1000⌋ := by
  have : (0 : ℤ) ≤ ⌊q * 1000⌋ := Int.floor_nonneg.2 (by positivity)
  simp [asMillisNat, Int.toNat_of_nonneg this]

theorem asMillisI64_eq {q : ℚ} (h0 : 0 ≤ q) (hb : ⌊q * 1000⌋ < 2 ^ 63) :
    asMillisI64 q = ⌊q * 1000⌋ := by
  have hnn : (0 : ℤ) ≤ ⌊q * 1000⌋ := Int.floor_nonneg.2 (by positivity)
  have : asMillisNat q < 2 ^ 63 := by
    have := asMillisNat_cast h0
    omega
  rw [asMillisI64, u128AsI64_of_lt this, asMillisNat_cast h0]

theorem sinkPosition_eval (raw dur : ℚ) (offsetMs : ℤ)
    (hms : ⌊(raw - dur) * 1000⌋ < 2 ^ 63)
    (hoff : -(2 ^ 63) ≤ offsetMs)
    (hsum : ⌊(raw - dur) * 1000⌋ + offsetMs ≤ 2 ^ 63 - 1) :
    sinkPosition raw dur offsetMs =
      if raw < dur then 0
      else ((max 0 (⌊(raw - dur) * 1000⌋ + offsetMs) : ℤ) : ℚ) / 1000 := by
  unfold sinkPosition
  split
  · rfl
  · next h =>
    have hge : dur ≤ raw := not_lt.1 h
    have h0 : 0 ≤ raw - dur := by linarith
    have hfl : (0 : ℤ) ≤ ⌊(raw - dur) * 1000⌋ := Int.floor_nonneg.2 (by positivity)
    dsimp only
    rw [asMillisI64_eq h0 hms, i64SatAdd_eq (by omega) hsum, max_comm]
    congr 1
    exact_mod_cast Int.toNat_of_nonneg (le_max_left 0 _)

theorem sinkPosition_zero : sinkPosition 0 0 0 = 0 := by
  rw [sinkPosition_eval 0 0 0 (by norm_num) (by norm_num) (by norm_num)]
  norm_num

/-- C1 (amended): `Sink::position` returns 0 outright when the raw stream
position is below `duration_played`, ignoring the offset; otherwise it is
the millisecond difference plus the signed offset, clamped at zero after
the addition: `position = if raw < duration_played then 0 else
max(0, (raw - duration_played)_ms + position_offset_ms)`. -/
theorem C1_sink_position_amended (raw dur : ℚ) (offsetMs : ℤ)
    (hms : ⌊(raw - dur) * 1000⌋ < 2 ^ 63)
    (hoff : -(2 ^ 63) ≤ offsetMs)
    (hsum : ⌊(raw - dur) * 1000⌋ + offsetMs ≤ 2 ^ 63 - 1) :
    sinkPosition raw dur offsetMs =
      if raw < dur then 0
      else ((max 0 (⌊(raw - dur) * 1000⌋ + offsetMs) : ℤ) : ℚ) / 1000 :=
  sinkPosition_eval raw dur offsetMs hms hoff hsum

/-- C1 counterexample: at raw position 0 s, `duration_played` 1 s and
offset +500 ms, the code returns 0 while the claimed formula
`max(0, raw - duration_played) + offset` yields 500 ms. -/
theorem C1_counterexample : sinkPosition 0 1 500 ≠ specPositionFormula 0 1 500 := by
  have h1 : sinkPosition 0 1 500 = 0 := by
    norm_num [sinkPosition]
  have h2 : specPositionFormula 0 1 500 = 1 / 2 := by
    norm_num [specPositionFormula, asMillisNat]
  rw [h1, h2]
  norm_num

/-- C1 witness: the amended position equation evaluated at raw 2 s,
`duration_played` 1 s, offset −2000 ms. -/
theorem C1_witness :
    sinkPosition 2 1 (-2000) =
      if (2 : ℚ) < 1 then 0
      else ((max 0 (⌊((2 : ℚ) - 1) * 1000⌋ + (-2000)) : ℤ) : ℚ) / 1000 :=
  C1_sink_position_amended 2 1 (-2000) (by norm_num) (by norm_num) (by norm_num)

/-- C2: `SkipToPosition` with `force = false`, a target below the current
tracklist position and a last published position above 1 s seeks the
current track to 0 and leaves the tracklist (hence the current track)
unchanged; `Previous` under the same published-position condition does the
same, since its target `current_position - 1` is always below the current
position. -/
theorem C2_previous_button_rule (st : PlayerSt) (o : EngineOracle)
    (hpos : 1000 < asMillisNat st.publishedPos)
    (hstream : st.sink.hasStream = true)
    (hseek : o.seek_ok = true) :
    (∀ new_position : ℤ, new_position < (st.tracklist.current_position : ℤ) →
      Player.skip_to_position st new_position false o =
        HResult.ok { st with sink := { st.sink with raw := 0, duration_played := 0,
                                                    position_offset_ms := 0 },
                             publishedPos := 0 }) ∧
    Player.previous st o =
      HResult.ok { st with sink := { st.sink with raw := 0, duration_played := 0,
                                                  position_offset_ms := 0 },
                           publishedPos := 0 } := by
  have hzero : Player.seek st 0 o =
      HResult.ok { st with sink := { st.sink with raw := 0, duration_played := 0,
                                                  position_offset_ms := 0 },
                           publishedPos := 0 } := by
    have hp : ∀ s : SinkSt, s.raw = 0 → s.duration_played = 0 →
        s.position_offset_ms = 0 → SinkSt.position s = 0 := by
      intro s h1 h2 h3
      rw [SinkSt.position, h1, h2, h3, ite_self, sinkPosition_zero]
    simp only [Player.seek, SinkSt.try_seek, hstream, hseek, if_true]
    simp
    exact hp _ rfl rfl rfl
  have part1 : ∀ new_position : ℤ,
      new_position < (st.tracklist.current_position : ℤ) →
      Player.skip_to_position st new_position false o =
        HResult.ok { st with sink := { st.sink with raw := 0, duration_played := 0,
                                                    position_offset_ms := 0 },
                             publishedPos := 0 } := by
    intro np hlt
    unfold Player.skip_to_position
    rw [if_pos ⟨rfl, hlt, hpos⟩]
    exact hzero
  exact ⟨part1, by unfold Player.previous; exact part1 _ (by omega)⟩

/-- C2 witness: queue [A(10 s), B(10 s)], current = B, published position
2.0 s; `Previous` keeps the tracklist (current still B) and resets the
position to 0. -/
theorem C2_witness :
    Player.previous exState exOracle =
      HResult.ok { exState with sink := { exState.sink with raw := 0, duration_played := 0,
                                                            position_offset_ms := 0 },
                                publishedPos := 0 } :=
  (C2_previous_button_rule exState exOracle
    (by norm_num [exState, asMillisNat]) rfl rfl).2

/-- C3 (amended): every queue-edit handler funnels into `update_queue`,
which clears the sink's pending source queue, resets
`next_track_is_queried` and re-publishes the tracklist — but it leaves
`next_track_in_sink_queue` unchanged, so a stale chained-next flag can
survive a queue edit. -/
theorem C3_queue_edits_amended (st : PlayerSt) (tl : Tracklist) (track : Track)
    (i : ℕ) (new_order : List ℕ) (dbOk : Bool) :
    Player.update_queue st tl true =
      HResult.ok { st with next_track_is_queried := false,
                           sink := st.sink.clear_queue, tracklist := tl } ∧
    (st.sink.clear_queue).pending = [] ∧
    (Player.update_queue st tl dbOk).state.next_track_in_sink_queue =
      st.next_track_in_sink_queue ∧
    Player.add_track_to_queue st (some track) dbOk =
      Player.update_queue st { queue := st.tracklist.queue ++ [track] } dbOk ∧
    (i < st.tracklist.queue.length →
      Player.remove_index_from_queue st i dbOk =
        Player.update_queue st { queue := st.tracklist.queue.eraseIdx i } dbOk) ∧
    (st.tracklist.current_position + 1 ≤ st.tracklist.queue.length →
      Player.play_track_next st (some track) dbOk =
        Player.update_queue st
          { queue := st.tracklist.queue.insertIdx (st.tracklist.current_position + 1) track }
          dbOk) ∧
    (Player.identity_order new_order = false →
      ∀ q, collectIdx st.tracklist.queue new_order = some q →
        Player.reorder_queue st new_order dbOk = Player.update_queue st { queue := q } dbOk) := by
  refine ⟨rfl, rfl, ?_, rfl, ?_, ?_, ?_⟩
  · cases dbOk <;> rfl
  · intro h
    unfold Player.remove_index_from_queue rustVecRemove
    rw [if_pos h]
  · intro h
    unfold Player.play_track_next
    dsimp only
    rw [if_pos h]
  · intro hid q hq
    unfold Player.reorder_queue
    rw [hid, hq]
    rfl

/-- C3 counterexample: a queue edit on a state whose
`next_track_in_sink_queue` flag is set leaves the flag set (the claim says
the engine's chained-next bookkeeping is cleared), even though the sink's
pending queue itself is emptied. -/
theorem C3_counterexample :
    (Player.update_queue { exState with next_track_in_sink_queue := true }
        exTracklist true).state.next_track_in_sink_queue = true ∧
    (Player.update_queue { exState with next_track_in_sink_queue := true }
        exTracklist true).state.sink.pending = [] :=
  ⟨rfl, rfl⟩

/-- C3 witness: removing index 0 and applying the reorder [1, 0] on the
two-track example state both reduce to `update_queue`. -/
theorem C3_witness :
    Player.remove_index_from_queue exState 0 true =
      Player.update_queue exState { queue := exState.tracklist.queue.eraseIdx 0 } true ∧
    Player.reorder_queue exState [1, 0] true =
      Player.update_queue exState { queue := [trackB, trackA] } true :=
  ⟨(C3_queue_edits_amended exState exTracklist trackA 0 [1, 0] true).2.2.2.2.1
      (by decide),
   (C3_queue_edits_amended exState exTracklist trackA 0 [1, 0] true).2.2.2.2.2.2
      (by rfl) [trackB, trackA] (by rfl)⟩

/-- Helper: any out-of-range entry makes the panicking index-collect fail. -/
theorem collectIdx_none {α : Type} (l : List α) :
    ∀ order : List ℕ, (∃ v ∈ order, l.length ≤ v) → collectIdx l order = none := by
  intro order
  induction order with
  | nil =>
    rintro ⟨v, hv, -⟩
    cases hv
  | cons a rest ih =>
    rintro ⟨v, hv, hlen⟩
    rcases List.mem_cons.1 hv with rfl | hv
    · have hva : l[v]? = none := List.getElem?_eq_none hlen
      simp [collectIdx, hva]
    · cases hga : l[a]? with
      | none => simp [collectIdx, hga]
      | some x => simp [collectIdx, hga, ih ⟨v, hv, hlen⟩]

/-- C10: `RemoveIndexFromQueue` with an index at or past the queue length
panics (unguarded `Vec::remove`), and a non-identity `ReorderQueue`
containing an entry at or past the queue length panics (unguarded
indexing) — neither returns an error that would become a notification. -/
theorem C10_unvalidated_queue_indices (st : PlayerSt) (i : ℕ)
    (new_order : List ℕ) (dbOk : Bool) :
    (st.tracklist.queue.length ≤ i →
      Player.remove_index_from_queue st i dbOk = HResult.panic st) ∧
    (Player.identity_order new_order = false →
      (∃ v ∈ new_order, st.tracklist.queue.length ≤ v) →
      Player.reorder_queue st new_order dbOk = HResult.panic st) := by
  constructor
  · intro h
    unfold Player.remove_index_from_queue rustVecRemove
    rw [if_neg (by omega)]
  · intro hid hex
    unfold Player.reorder_queue
    rw [hid, collectIdx_none _ _ hex]
    rfl

/-- C10 witness: on the two-track example state, removing index 2 and the
non-identity reorder [2, 0] both panic. -/
theorem C10_witness :
    Player.remove_index_from_queue exState 2 true = HResult.panic exState ∧
    Player.reorder_queue exState [2, 0] true = HResult.panic exState :=
  ⟨(C10_unvalidated_queue_indices exState 2 [2, 0] true).1 (by decide),
   (C10_unvalidated_queue_indices exState 2 [2, 0] true).2 (by decide)
      ⟨2, by decide, by decide⟩⟩

/-- Helper: `rustClamp` lands in the closed interval when `lo ≤ hi`. -/
theorem rustClamp_mem {α : Type} [LinearOrder α] (x lo hi : α) (h : lo ≤ hi) :
    rustClamp x lo hi ∈ Set.Icc lo hi :=
  ⟨le_min (le_max_right x lo) h, min_le_right _ _⟩

/-- Helper: `rustClamp` is the identity on in-range values. -/
theorem rustClamp_of_mem {α : Type} [LinearOrder α] {x lo hi : α}
    (h1 : lo ≤ x) (h2 : x ≤ hi) : rustClamp x lo hi = x := by
  rw [rustClamp, max_eq_left h1, min_eq_left h2]

/-- Helper: reloading the current track never touches the shared playback
stretch config. -/
theorem reload_state_stretch (st : PlayerSt) (old : Option ℚ) (o : EngineOracle) :
    (Player.reload_current_track_with_stretch st old o).state.stretch = st.stretch := by
  unfold Player.reload_current_track_with_stretch
  split
  · rfl
  · split
    · rfl
    · split
      · rfl
      · split
        · rfl
        · dsimp only
          split
          · rfl
          · rfl

/-- C4: `SetTimeStretch` processed with a live-stretch sink at a positive
position: the engine computes the rescaled display position
`p' = p * old_ratio / new_ratio`, adjusts the sink's position offset by the
millisecond difference `p'_ms - p_ms`, writes the clamped ratio to the
shared config and publishes `p'` on the position watch channel. -/
theorem C4_set_time_stretch_live (st : PlayerSt) (ratio_in : ℚ) (o : EngineOracle)
    (hdb : o.db_ok = true)
    (hlive : st.sink.live_stretch_enabled = true)
    (hpos : 0 < SinkSt.position st.sink)
    (hb1 : ⌊SinkSt.position st.sink * 1000⌋ < 2 ^ 63)
    (hb2 : ⌊Player.rescale_display_position (SinkSt.position st.sink)
        st.stretch.time_stretch_ratio (rustClamp ratio_in (1 / 2) 2) * 1000⌋ < 2 ^ 63)
    (hlo : -(2 ^ 63) ≤ st.sink.position_offset_ms +
      (⌊Player.rescale_display_position (SinkSt.position st.sink)
          st.stretch.time_stretch_ratio (rustClamp ratio_in (1 / 2) 2) * 1000⌋ -
        ⌊SinkSt.position st.sink * 1000⌋))
    (hhi : st.sink.position_offset_ms +
      (⌊Player.rescale_display_position (SinkSt.position st.sink)
          st.stretch.time_stretch_ratio (rustClamp ratio_in (1 / 2) 2) * 1000⌋ -
        ⌊SinkSt.position st.sink * 1000⌋) ≤ 2 ^ 63 - 1) :
    Player.set_time_stretch st ratio_in o =
      HResult.ok { st with
        stretch := { st.stretch with
                     time_stretch_ratio := rustClamp ratio_in (1 / 2) 2 },
        sink := { st.sink with
                  position_offset_ms := st.sink.position_offset_ms +
                    (⌊Player.rescale_display_position (SinkSt.position st.sink)
                        st.stretch.time_stretch_ratio (rustClamp ratio_in (1 / 2) 2) * 1000⌋ -
                      ⌊SinkSt.position st.sink * 1000⌋) },
        publishedPos := Player.rescale_display_position (SinkSt.position st.sink)
          st.stretch.time_stretch_ratio (rustClamp ratio_in (1 / 2) 2) } := by
  have hp0 : 0 ≤ SinkSt.position st.sink := le_of_lt hpos
  have hp'0 : 0 ≤ Player.rescale_display_position (SinkSt.position st.sink)
      st.stretch.time_stretch_ratio (rustClamp ratio_in (1 / 2) 2) :=
    le_max_right _ 0
  simp only [Player.set_time_stretch, hdb, Bool.true_eq_false, if_false, hlive,
    SinkSt.adjust_position_offset_ms]
  rw [if_pos ⟨trivial, hpos⟩]
  rw [asMillisI64_eq hp'0 hb2, asMillisI64_eq hp0 hb1, i64SatAdd_eq hlo hhi]

/-- Helper: the example sink at raw position 10 s reads position 10 s. -/
theorem exState10_position : SinkSt.position exState10.sink = 10 := by
  have h : SinkSt.position exState10.sink = sinkPosition 10 0 0 := rfl
  rw [h, sinkPosition_eval 10 0 0 (by norm_num) (by norm_num) (by norm_num)]
  norm_num

/-- C4 witness: track at display position 10 s, ratio changed from 1.0 to
1.5; the published position is `p' = 10 × 1.0/1.5 = 20/3 ≈ 6.67 s` and the
offset shifts by 6666 − 10000 ms. -/
theorem C4_witness :
    Player.set_time_stretch exState10 (3 / 2) exOracle =
      HResult.ok { exState10 with
        stretch := { exState10.stretch with
                     time_stretch_ratio := rustClamp (3 / 2) (1 / 2) 2 },
        sink := { exState10.sink with
                  position_offset_ms := exState10.sink.position_offset_ms +
                    (⌊Player.rescale_display_position (SinkSt.position exState10.sink)
                        exState10.stretch.time_stretch_ratio
                        (rustClamp (3 / 2) (1 / 2) 2) * 1000⌋ -
                      ⌊SinkSt.position exState10.sink * 1000⌋) },
        publishedPos := Player.rescale_display_position (SinkSt.position exState10.sink)
          exState10.stretch.time_stretch_ratio (rustClamp (3 / 2) (1 / 2) 2) } := by
  have hresc : Player.rescale_display_position (SinkSt.position exState10.sink)
      exState10.stretch.time_stretch_ratio (rustClamp (3 / 2) (1 / 2) 2) = 20 / 3 := by
    rw [exState10_position, rustClamp_of_mem (by norm_num) (by norm_num)]
    have hr : exState10.stretch.time_stretch_ratio = 1 := rfl
    rw [hr, Player.rescale_display_position, max_eq_left (by norm_num)]
    norm_num
  have ho : exState10.sink.position_offset_ms = 0 := rfl
  exact C4_set_time_stretch_live exState10 (3 / 2) exOracle rfl rfl
    (by rw [exState10_position]; norm_num)
    (by rw [exState10_position]; norm_num)
    (by rw [hresc]; norm_num)
    (by rw [hresc, exState10_position, ho]; norm_num)
    (by rw [hresc, exState10_position, ho]; norm_num)

/-- C5: the values persisted by the store setters and the values written to
the shared playback config by the stretch/pitch handlers are always inside
`[0.5, 2.0]`, `[-12, 12]` and `[-100, 100]` respectively, whatever the
input. -/
theorem C5_clamping (r : ℚ) (s c : ℤ) (st : PlayerSt) (o : EngineOracle) :
    Database.set_time_stretch_ratio r ∈ Set.Icc (1 / 2 : ℚ) 2 ∧
    Database.set_pitch_semitones s ∈ Set.Icc (-12 : ℤ) 12 ∧
    Database.set_pitch_cents c ∈ Set.Icc (-100 : ℤ) 100 ∧
    (Player.set_time_stretch st r { o with db_ok := true }).state.stretch.time_stretch_ratio
      ∈ Set.Icc (1 / 2 : ℚ) 2 ∧
    (Player.set_pitch st s { o with db_ok := true }).state.stretch.pitch_semitones
      ∈ Set.Icc (-12 : ℤ) 12 ∧
    (Player.set_pitch_cents st c { o with db_ok := true }).state.stretch.pitch_cents
      ∈ Set.Icc (-100 : ℤ) 100 := by
  refine ⟨rustClamp_mem r _ _ (by norm_num), rustClamp_mem s _ _ (by norm_num),
    rustClamp_mem c _ _ (by norm_num), ?_, ?_, ?_⟩
  · unfold Player.set_time_stretch
    dsimp only
    rw [if_neg (by simp)]
    split
    · exact rustClamp_mem r _ _ (by norm_num)
    · split
      · rw [HResult.state, reload_state_stretch]
        exact rustClamp_mem r _ _ (by norm_num)
      · exact rustClamp_mem r _ _ (by norm_num)
  · unfold Player.set_pitch
    dsimp only
    rw [if_neg (by simp)]
    split
    · rw [HResult.state, reload_state_stretch]
      exact rustClamp_mem s _ _ (by norm_num)
    · exact rustClamp_mem s _ _ (by norm_num)
  · unfold Player.set_pitch_cents
    dsimp only
    rw [if_neg (by simp)]
    split
    · rw [HResult.state, reload_state_stretch]
      exact rustClamp_mem c _ _ (by norm_num)
    · exact rustClamp_mem c _ _ (by norm_num)

/-- C6 (amended): `SetVolume` publishes the raw input value unchanged on
the volume watch channel — only the gain applied to the audio sink is
clamped to `[0,1]` (and cubed); observed watch values stay in `[0,1]` only
when every sender stays in `[0,1]`. -/
theorem C6_volume_amended (st : PlayerSt) (v : ℚ) :
    Player.set_volume st v true = HResult.ok { st with publishedVolume := v } ∧
    sink_set_volume v ∈ Set.Icc (0 : ℚ) 1 := by
  refine ⟨rfl, ?_, ?_⟩
  · exact pow_nonneg (rustClamp_mem v 0 1 (by norm_num)).1 3
  · exact pow_le_one₀ (rustClamp_mem v 0 1 (by norm_num)).1
      (rustClamp_mem v 0 1 (by norm_num)).2

/-- C6 counterexample: `SetVolume` with v = 1.5 publishes 1.5 on the volume
watch channel, outside `[0,1]`. -/
theorem C6_counterexample :
    (Player.set_volume exState (3 / 2) true).state.publishedVolume = 3 / 2 ∧
    ¬ (Player.set_volume exState (3 / 2) true).state.publishedVolume ≤ 1 := by
  constructor
  · rfl
  · have h : (Player.set_volume exState (3 / 2) true).state.publishedVolume
        = (3 / 2 : ℚ) := rfl
    rw [h]
    norm_num

/-- C7: the `ControlCommand` enum declared in controls.rs has 19 variants,
not the 22 the specification lists: `SetTimeStretch`, `SetPitch` and
`SetPitchCents` are absent from the enum (although `handle_message` in
player.rs pattern-matches on them). -/
theorem C7_command_enum :
    Fintype.card ControlCommandKind = 19 ∧
    codeCommandNames.length = 19 ∧
    specCommandNames.length = 22 ∧
    "SetTimeStretch" ∉ codeCommandNames ∧
    "SetPitch" ∉ codeCommandNames ∧
    "SetPitchCents" ∉ codeCommandNames ∧
    ∀ name ∈ codeCommandNames, name ∈ specCommandNames := by
  refine ⟨by decide, by decide, by decide, by decide, by decide, by decide, by decide⟩

/-- C8 (amended): `set_tracklist` runs `DELETE` then `INSERT` as two
separate statements with no transaction: a successful call leaves exactly
the one new row, but when the `INSERT` fails after the `DELETE` succeeded
the store is left with zero rows and the prior snapshot is gone; the store
never ends with more rows than max(1, what it had). -/
theorem C8_set_tracklist_amended {α : Type} (table : List α) (t : α)
    (dOk iOk : Bool) :
    Database.set_tracklist table t true true = ([t], true) ∧
    Database.set_tracklist table t true false = ([], false) ∧
    Database.set_tracklist table t false iOk = (table, false) ∧
    (Database.set_tracklist table t dOk iOk).1.length ≤ max 1 table.length := by
  refine ⟨rfl, rfl, rfl, ?_⟩
  cases dOk <;> cases iOk <;> simp [Database.set_tracklist]

/-- C8 counterexample: with one stored snapshot, a `DELETE` that succeeds
followed by an `INSERT` that fails leaves zero rows — the previously stored
snapshot is no longer readable. -/
theorem C8_counterexample :
    (Database.set_tracklist [(0 : ℕ)] 1 true false).1 = [] ∧
    Database.get_tracklist (Database.set_tracklist [(0 : ℕ)] 1 true false).1 = none ∧
    Database.get_tracklist [(0 : ℕ)] = some 0 :=
  ⟨rfl, rfl, rfl⟩

/-- C9: for a block with `0 < input_frames ≤ BLOCK_FRAMES` and ratio in
`[0.5, 2.0]`, the emitted output frame count equals
`round(input_frames / ratio)` clamped above by
`max_output_frames = ceil(BLOCK_FRAMES / 0.5) = 4096`, and the emitted
samples never exceed the output buffer capacity. -/
theorem C9_output_frames (n : ℕ) (r : ℚ)
    (hn1 : 1 ≤ n) (hn2 : n ≤ BLOCK_FRAMES) (hr1 : 1 / 2 ≤ r) (hr2 : r ≤ 2) :
    output_frames n r = min ((rustRound ((n : ℚ) / r)).toNat) max_output_frames ∧
    max_output_frames = 4096 ∧
    output_len n r ≤ out_cap := by
  have hrpos : (0 : ℚ) < r := lt_of_lt_of_le (by norm_num) hr1
  have hq0 : (0 : ℚ) ≤ (n : ℚ) / r := by positivity
  have hge : (1 : ℚ) / 2 ≤ (n : ℚ) / r := by
    have hn : (1 : ℚ) ≤ (n : ℚ) := by exact_mod_cast hn1
    rw [div_le_div_iff₀ (by norm_num) hrpos]
    linarith
  have hround : (1 : ℤ) ≤ rustRound ((n : ℚ) / r) := by
    rw [rustRound, if_pos hq0]
    have : (1 : ℚ) ≤ (n : ℚ) / r + 1 / 2 := by linarith
    exact_mod_cast Int.le_floor.2 (by exact_mod_cast this)
  have htn : 1 ≤ (rustRound ((n : ℚ) / r)).toNat := by omega
  refine ⟨?_, ?_, ?_⟩
  · rw [output_frames, Nat.max_eq_left htn]
  · have hce : ⌈(BLOCK_FRAMES : ℚ) / (1 / 2)⌉ = 4096 := by norm_num [BLOCK_FRAMES]
    rw [max_output_frames, hce]
    rfl
  · calc output_len n r = output_frames n r * N_CHANNELS := rfl
      _ ≤ max_output_frames * N_CHANNELS := by
          exact Nat.mul_le_mul_right _ (min_le_right _ _)
      _ = out_cap := rfl

/-- C9 witness: a full block of 2048 input frames at ratio 1. -/
theorem C9_witness :
    output_frames 2048 1 = min ((rustRound ((2048 : ℚ) / 1)).toNat) max_output_frames ∧
    max_output_frames = 4096 ∧
    output_len 2048 1 ≤ out_cap :=
  C9_output_frames 2048 1 (by norm_num) (by norm_num [BLOCK_FRAMES]) (by norm_num)
    (by norm_num)

end QobuzMini
